import Mathlib

set_option maxRecDepth 100000
set_option maxHeartbeats 1000000

/-
Verification development for the send2ue Blender add-on sources
(send2ue/core/utilities.py and send2ue/core/validations.py).

Strings are modelled as lists of characters.  Python's `re` module is
modelled by a small executable regex engine: a fuel-based recursive-descent
compiler from pattern strings to an abstract syntax tree, and a fuel-based
backtracking matcher that returns, in Python's preference order, the list of
possible match lengths together with the captured groups.  Patterns using
constructs outside the modelled subset (character classes, anchors, counted
repetition, lazy or possessive quantifiers, extension groups) compile to
`none`, which plays the role of Python's `re.error`.  Fallible Python code
is modelled with `Except PyErr`.
-/

abbrev Str := List Char

/-
Python str.strip: remove leading and trailing whitespace.
-/

def isPyWs (c : Char) : Bool :=
  c = ' ' || c = '\t' || c = '\n' || c = '\r' || c = '\x0b' || c = '\x0c'

def pyStrip (s : Str) : Str :=
  ((s.dropWhile isPyWs).reverse.dropWhile isPyWs).reverse

/-- Modelled from the spec: the constant RegexPresets.INVALID_NAME_CHARACTERS
lives in send2ue/constants.py, which is not among the sources.  Per the spec
("stripping characters outside an allowed set", and the validation error
message quoted in the spec sources: the only valid special characters are
"+", "-" and "_"), a character is valid exactly when it is alphanumeric or
one of '_', '+', '-'. -/
def isValidNameChar (c : Char) : Bool :=
  c.isAlphanum || c = '_' || c = '+' || c = '-'

/-
re.sub(RegexPresets.INVALID_NAME_CHARACTERS, "_", asset_name.strip()):
the pattern is a single-character class, so the substitution replaces each
invalid character by '_'.
-/
def normalizeName (s : Str) : Str :=
  (pyStrip s).map (fun c => if isValidNameChar c then c else '_')

/-
Python str.replace(old, new): replaces every non-overlapping occurrence of
old, scanning left to right; with old = "" it inserts new before every
character and at the end.  The auxiliary recursion is driven by a fuel
argument (s.length + 1 always suffices) so that it is structural and reduces
in the kernel.
-/

def pyReplaceAux (old new : Str) : Nat → Str → Str
  | 0, s => s
  | _ + 1, [] => []
  | fuel + 1, a :: rest =>
    if old.isPrefixOf (a :: rest) then
      new ++ pyReplaceAux old new fuel ((a :: rest).drop old.length)
    else
      a :: pyReplaceAux old new fuel rest

def pyReplace (s old new : Str) : Str :=
  if old = [] then new ++ s.flatMap (fun c => c :: new)
  else pyReplaceAux old new (s.length + 1) s

/-
_extract_regex_flags (utilities.py):
    if pattern.startswith("(?i)"): flags |= re.IGNORECASE; pattern = pattern[4:]
    pattern = re.sub(r'^\(\?[a-zA-Z]*\)', '', pattern)
The anchored sub removes at most one leading token of shape
'(' '?' letters ')'.
-/

def stripFlagToken (p : Str) : Str :=
  match p with
  | '(' :: '?' :: rest =>
    match rest.dropWhile Char.isAlpha with
    | ')' :: tail => tail
    | _ => p
  | _ => p

def _extract_regex_flags (pattern : Str) : Str × Bool :=
  if pattern.take 4 = "(?i)".toList then (stripFlagToken (pattern.drop 4), true)
  else (stripFlagToken pattern, false)

/-
The regex engine.
-/

inductive ClsKind where
  | digit
  | word
  | space
deriving DecidableEq

inductive Regex where
  | eps : Regex
  | lit : Char → Regex
  | anyChar : Regex
  | cls : Bool → ClsKind → Regex
  | cat : Regex → Regex → Regex
  | alt : Regex → Regex → Regex
  | star : Regex → Regex
  | opt : Regex → Regex
  | group : Nat → Regex → Regex
deriving DecidableEq

def Regex.size : Regex → Nat
  | .eps => 1
  | .lit _ => 1
  | .anyChar => 1
  | .cls _ _ => 1
  | .cat a b => a.size + b.size + 1
  | .alt a b => a.size + b.size + 1
  | .star a => a.size + 1
  | .opt a => a.size + 1
  | .group _ a => a.size + 1

/-
Captured groups: association list, most recent capture first (Python keeps
the last capture of each group).
-/
abbrev Caps := List (Nat × Str)

def capsGet (k : Caps) (i : Nat) : Option Str :=
  (k.find? (fun p => p.1 == i)).map (fun p => p.2)

def clsMatch (k : ClsKind) (c : Char) : Bool :=
  match k with
  | .digit => c.isDigit
  | .word => c.isAlphanum || c = '_'
  | .space => isPyWs c

def charMatch (ig : Bool) (c a : Char) : Bool :=
  if ig then c.toLower = a.toLower else c = a

/-
Backtracking matcher: mtch fuel ig r s k returns all (consumed length, caps)
pairs in Python's preference order (greedy quantifiers, left alternative
first).  Star iterations that consume nothing are cut, matching the engine's
empty-repeat rule.  Fuel s.length + r.size + 1 always suffices because every
recursive call strictly decreases s.length + r.size.
-/
def mtch : Nat → Bool → Regex → Str → Caps → List (Nat × Caps)
  | 0, _, _, _, _ => []
  | fuel + 1, ig, r, s, k =>
    match r with
    | .eps => [(0, k)]
    | .lit c =>
      match s with
      | [] => []
      | a :: _ => if charMatch ig c a then [(1, k)] else []
    | .anyChar =>
      match s with
      | [] => []
      | a :: _ => if a = '\n' then [] else [(1, k)]
    | .cls pos kind =>
      match s with
      | [] => []
      | a :: _ => if clsMatch kind a = pos then [(1, k)] else []
    | .cat r1 r2 =>
      (mtch fuel ig r1 s k).flatMap (fun p =>
        (mtch fuel ig r2 (s.drop p.1) p.2).map (fun q => (p.1 + q.1, q.2)))
    | .alt r1 r2 => mtch fuel ig r1 s k ++ mtch fuel ig r2 s k
    | .opt r1 => mtch fuel ig r1 s k ++ [(0, k)]
    | .star r1 =>
      ((mtch fuel ig r1 s k).filter (fun p => decide (0 < p.1))).flatMap (fun p =>
        (mtch fuel ig (.star r1) (s.drop p.1) p.2).map (fun q => (p.1 + q.1, q.2))) ++ [(0, k)]
    | .group i r1 =>
      (mtch fuel ig r1 s k).map (fun p => (p.1, (i, s.take p.1) :: p.2))

/-
Recursive-descent compiler for the modelled pattern subset.  Group indices
are assigned in order of opening parentheses, starting from 1, as in Python.
-/

def quantFollows (s : Str) : Bool :=
  match s with
  | c :: _ => c = '?' || c = '+' || c = '*'
  | [] => false

def escAtom (c : Char) : Option Regex :=
  if c = 'd' then some (Regex.cls true ClsKind.digit)
  else if c = 'D' then some (Regex.cls false ClsKind.digit)
  else if c = 'w' then some (Regex.cls true ClsKind.word)
  else if c = 'W' then some (Regex.cls false ClsKind.word)
  else if c = 's' then some (Regex.cls true ClsKind.space)
  else if c = 'S' then some (Regex.cls false ClsKind.space)
  else if c = 't' then some (Regex.lit '\t')
  else if c = 'n' then some (Regex.lit '\n')
  else if c = 'r' then some (Regex.lit '\r')
  else if c = 'f' then some (Regex.lit '\x0c')
  else if c = 'v' then some (Regex.lit '\x0b')
  else if c.isAlphanum then none
  else some (Regex.lit c)

inductive PK where
  | alt
  | cat
  | quant
  | atom

def parseR : Nat → PK → Str → Nat → Option (Regex × Str × Nat)
  | 0, _, _, _ => none
  | fuel + 1, PK.alt, s, g =>
    match parseR fuel PK.cat s g with
    | none => none
    | some (r1, s1, g1) =>
      match s1 with
      | '|' :: rest =>
        match parseR fuel PK.alt rest g1 with
        | none => none
        | some (r2, s2, g2) => some (Regex.alt r1 r2, s2, g2)
      | _ => some (r1, s1, g1)
  | fuel + 1, PK.cat, s, g =>
    match s with
    | [] => some (Regex.eps, [], g)
    | ')' :: _ => some (Regex.eps, s, g)
    | '|' :: _ => some (Regex.eps, s, g)
    | _ =>
      match parseR fuel PK.quant s g with
      | none => none
      | some (r1, s1, g1) =>
        match parseR fuel PK.cat s1 g1 with
        | none => none
        | some (r2, s2, g2) => some (Regex.cat r1 r2, s2, g2)
  | fuel + 1, PK.quant, s, g =>
    match parseR fuel PK.atom s g with
    | none => none
    | some (r1, s1, g1) =>
      match s1 with
      | '?' :: rest => if quantFollows rest then none else some (Regex.opt r1, rest, g1)
      | '+' :: rest =>
        if quantFollows rest then none else some (Regex.cat r1 (Regex.star r1), rest, g1)
      | '*' :: rest => if quantFollows rest then none else some (Regex.star r1, rest, g1)
      | _ => some (r1, s1, g1)
  | fuel + 1, PK.atom, s, g =>
    match s with
    | [] => none
    | '(' :: '?' :: _ => none
    | '(' :: rest =>
      match parseR fuel PK.alt rest (g + 1) with
      | none => none
      | some (r1, s1, g1) =>
        match s1 with
        | ')' :: s2 => some (Regex.group g r1, s2, g1)
        | _ => none
    | '\\' :: c :: rest =>
      match escAtom c with
      | none => none
      | some r => some (r, rest, g)
    | ['\\'] => none
    | '.' :: rest => some (Regex.anyChar, rest, g)
    | '[' :: _ => none
    | c :: rest =>
      if c = '?' || c = '+' || c = '*' || c = '^' || c = '$' || c = '{' ||
          c = ')' || c = '|' then none
      else some (Regex.lit c, rest, g)

/-
compile p: some (regex, number of groups) on success, none for re.error
(including constructs outside the modelled subset).
-/
def compile (p : Str) : Option (Regex × Nat) :=
  match parseR (4 * p.length + 8) PK.alt p 1 with
  | some (r, [], g) => some (r, g - 1)
  | _ => none

def mtchFuel (r : Regex) (s : Str) : Nat := s.length + r.size + 1

/-
re.search: leftmost starting position, first result in preference order.
Returns (start, length, caps).
-/
def searchTop (ig : Bool) (r : Regex) (s : Str) : Option (Nat × Nat × Caps) :=
  (List.range (s.length + 1)).findSome? (fun i =>
    match mtch (mtchFuel r (s.drop i)) ig r (s.drop i) [] with
    | [] => none
    | p :: _ => some (i, p.1, p.2))

/-
re.fullmatch as a boolean: some backtracking alternative consumes the whole
string.
-/
def fullmatchTop (ig : Bool) (r : Regex) (s : Str) : Bool :=
  (mtch (mtchFuel r s) ig r s []).any (fun p => p.1 == s.length)

/-
The tool's property group, restricted to the fields the naming utilities
read.
-/
structure PropertyData where
  lod_regex : Str
  import_lods : Bool

def cleanPattern (props : PropertyData) : Str := (_extract_regex_flags props.lod_regex).1

def igFlag (props : PropertyData) : Bool := (_extract_regex_flags props.lod_regex).2

/-
f"({lod_regex})": the cleaned pattern wrapped in one capturing group.
-/
def wrapGroup (p : Str) : Str := '(' :: (p ++ [')'])

/-
Python exceptions that the naming utilities can raise or catch.
-/
inductive PyErr where
  | reError
  | valueError
  | indexError
  | typeError
deriving DecidableEq

/-
get_lod0_name (utilities.py, lines 123-140): search f"({lod_regex})" in the
name; lod = result.groups()[-1] (the LAST group, group number gc); return
asset_name.replace(lod, lod[:-1] + '0').  re.error (modelled: compile none)
and IndexError (groups() empty, gc = 0) are caught and the input returned;
if the last group did not participate, lod is None and lod[:-1] raises an
uncaught TypeError.
-/
def get_lod0_name (asset_name : Str) (props : PropertyData) : Except PyErr Str :=
  match compile (wrapGroup (cleanPattern props)) with
  | none => Except.ok asset_name
  | some (r, gc) =>
    match searchTop (igFlag props) r asset_name with
    | none => Except.ok asset_name
    | some (_, _, caps) =>
      if gc = 0 then Except.ok asset_name
      else
        match capsGet caps gc with
        | none => Except.error PyErr.typeError
        | some lod => Except.ok (pyReplace asset_name lod (lod.dropLast ++ ['0']))

/-
get_lod_index (utilities.py, lines 143-160): same search; int(lod[-1]) with
re.error, ValueError (non-digit) and IndexError (empty capture) caught,
returning 0; a None last group raises an uncaught TypeError.
-/
def get_lod_index (asset_name : Str) (props : PropertyData) : Except PyErr Nat :=
  match compile (wrapGroup (cleanPattern props)) with
  | none => Except.ok 0
  | some (r, gc) =>
    match searchTop (igFlag props) r asset_name with
    | none => Except.ok 0
    | some (_, _, caps) =>
      if gc = 0 then Except.ok 0
      else
        match capsGet caps gc with
        | none => Except.error PyErr.typeError
        | some lod =>
          match lod.getLast? with
          | none => Except.ok 0
          | some c => if c.isDigit then Except.ok (c.toNat - 48) else Except.ok 0

/-
The search step of get_asset_name: re.search(f"({lod_regex})", a, flags),
where a compile failure (re.error, caught by the function) and a failed
search lead to the same fall-through return.
-/
def lodSearchIn (props : PropertyData) (s : Str) : Option (Nat × Nat × Caps) :=
  match compile (wrapGroup (cleanPattern props)) with
  | none => none
  | some (r, _) => searchTop (igFlag props) r s

/-
get_asset_name (utilities.py, lines 510-535): normalize characters, then if
import_lods, remove result.groups()[0] (group 1) from the name with
str.replace (all occurrences).  re.error is caught (LOD processing skipped);
a None group 1 raises an uncaught TypeError.
-/
def get_asset_name (asset_name : Str) (props : PropertyData) (lod : Bool) : Except PyErr Str :=
  let a := normalizeName asset_name
  if props.import_lods then
    match lodSearchIn props a with
    | some (_, _, caps) =>
      if lod then Except.ok a
      else
        match capsGet caps 1 with
        | none => Except.error PyErr.typeError
        | some g => Except.ok (pyReplace a g [])
    | none => Except.ok a
  else Except.ok a

/-
re.escape (Python >= 3.7 set of escaped characters).
-/
def reSpecialChar (c : Char) : Bool :=
  c = '(' || c = ')' || c = '[' || c = ']' || c = '?' || c = '*' || c = '+' || c = '-' ||
  c = '|' || c = '^' || c = '$' || c = '\\' || c = '.' || c = '&' || c = '~' || c = '#' ||
  c = ' ' || c = '\t' || c = '\n' || c = '\r' || c = '\x0b' || c = '\x0c' ||
  c = '\x7b' || c = '\x7d'

def escapeRe (s : Str) : Str :=
  s.flatMap (fun c => if reSpecialChar c then ['\\', c] else [c])

/-
re.fullmatch(r"U(BX|CP|SP|CX)_" + re.escape(asset_name) + r"(_\d+)?", name):
since the asset name is escaped it is matched literally, so this fullmatch
is exactly the decomposition prefix ++ asset ++ suffix with prefix one of
UBX_/UCP_/USP_/UCX_ and suffix empty or '_' followed by one or more digits.
This pattern always compiles (escaping removes every metacharacter).
-/

def stripPrefixStr (pre s : Str) : Option Str :=
  match pre, s with
  | [], rest => some rest
  | _ :: _, [] => none
  | a :: pre', b :: s' => if a = b then stripPrefixStr pre' s' else none

def digitsSuffixOk (s : Str) : Bool :=
  match s with
  | [] => true
  | '_' :: ds => !ds.isEmpty && ds.all Char.isDigit
  | _ => false

def basicFullmatch (asset : Str) (name : Str) : Bool :=
  ["UBX_", "UCP_", "USP_", "UCX_"].any (fun pre =>
    match stripPrefixStr pre.toList name with
    | none => false
    | some rest1 =>
      match stripPrefixStr asset rest1 with
      | none => false
      | some rest2 => digitsSuffixOk rest2)

/-
lod_pattern = r"U(BX|CP|SP|CX)_" + re.escape(asset_name) + lod_regex +
r"(_\d+)?", compiled as one pattern string (so a malformed lod_regex makes
the whole pattern malformed).
-/
def collisionLodPattern (asset lr : Str) : Str :=
  ("U(BX|CP|SP|CX)_".toList) ++ escapeRe asset ++ lr ++ ("(_\\d+)?".toList)

/-
is_collision_of (utilities.py, lines 760-786).
-/
def is_collision_of (asset_name mesh_object_name : Str) (props : PropertyData) : Bool :=
  let m := pyStrip mesh_object_name
  if basicFullmatch asset_name m then true
  else
    match compile (collisionLodPattern asset_name (cleanPattern props)) with
    | some (r, _) => fullmatchTop (igFlag props) r m
    | none => basicFullmatch asset_name m

deriving instance DecidableEq for Except

/-
is_collision_of as the spec states it (component design 4.3): the trimmed
candidate fully matches the basic collision form, OR (only when that fails)
the collision-with-LOD form; a malformed combined pattern contributes
nothing beyond the basic form.
-/
def is_collision_of_spec (asset_name mesh_object_name : Str) (props : PropertyData) : Bool :=
  basicFullmatch asset_name (pyStrip mesh_object_name) ||
    (match compile (collisionLodPattern asset_name (cleanPattern props)) with
     | some (r, _) => fullmatchTop (igFlag props) r (pyStrip mesh_object_name)
     | none => false)

/-
get_lod0_name as the claim states it: the name with the matched substring's
final character replaced by '0' (one replacement, at the match site), input
unchanged on no match or regex error.
-/
def lod0_name_asSpecified (name : Str) (props : PropertyData) : Str :=
  match compile (wrapGroup (cleanPattern props)) with
  | none => name
  | some (r, _) =>
    match searchTop (igFlag props) r name with
    | none => name
    | some (i, n, _) =>
      name.take i ++ (((name.drop i).take n).dropLast ++ ['0']) ++ name.drop (i + n)

/-
get_lod_index as the claim states it: the final character of the matched
substring parsed as an integer, 0 on no match or parse failure.
-/
def lod_index_asSpecified (name : Str) (props : PropertyData) : Nat :=
  match compile (wrapGroup (cleanPattern props)) with
  | none => 0
  | some (r, _) =>
    match searchTop (igFlag props) r name with
    | none => 0
    | some (i, n, _) =>
      match ((name.drop i).take n).getLast? with
      | none => 0
      | some c => if c.isDigit then c.toNat - 48 else 0

/-
ValidationManager (validations.py).  The fourteen validate_* methods read
live editor state (scene settings, meshes, materials, the RPC connection);
for the pipeline's control-flow they are modelled as boolean predicates
over an abstract scene-state type, one field per method, named as in the
source.  run_pre_validations is the source's loop: call each check in the
listed order, return False at the first check returning False, True when
all succeed.
-/
structure ValidationManager (σ : Type) where
  validate_scene_scale : σ → Bool
  validate_frame_rate : σ → Bool
  validate_armature_transforms : σ → Bool
  validate_export_objects_exist : σ → Bool
  validate_lod_groups : σ → Bool
  validate_project_settings : σ → Bool
  validate_disk_folders : σ → Bool
  validate_unreal_folders : σ → Bool
  validate_unreal_asset_paths : σ → Bool
  validate_materials : σ → Bool
  validate_lod_names : σ → Bool
  validate_texture_references : σ → Bool
  validate_object_names : σ → Bool
  validate_meshes_for_vertex_groups : σ → Bool

/-
The fixed list of checks, in the order of validations.py lines 32-47.
-/
def ValidationManager.validations {σ : Type} (m : ValidationManager σ) : List (σ → Bool) :=
  [m.validate_scene_scale,
   m.validate_frame_rate,
   m.validate_armature_transforms,
   m.validate_export_objects_exist,
   m.validate_lod_groups,
   m.validate_project_settings,
   m.validate_disk_folders,
   m.validate_unreal_folders,
   m.validate_unreal_asset_paths,
   m.validate_materials,
   m.validate_lod_names,
   m.validate_texture_references,
   m.validate_object_names,
   m.validate_meshes_for_vertex_groups]

def runChecks {σ : Type} : List (σ → Bool) → σ → Bool
  | [], _ => true
  | c :: cs, s => if c s then runChecks cs s else false

/-
The same loop, additionally counting how many checks were invoked: the loop
calls checks from the front of the list, so a count of n means exactly the
first n checks ran, in list order.
-/
def runChecksCount {σ : Type} : List (σ → Bool) → σ → Bool × Nat
  | [], _ => (true, 0)
  | c :: cs, s =>
    if c s then
      let p := runChecksCount cs s
      (p.1, p.2 + 1)
    else (false, 1)

def ValidationManager.run_pre_validations {σ : Type} (m : ValidationManager σ) (s : σ) : Bool :=
  runChecks m.validations s

def ValidationManager.run_pre_validations_count {σ : Type} (m : ValidationManager σ) (s : σ) :
    Bool × Nat :=
  runChecksCount m.validations s

/-
report_error (utilities.py, lines 394-413).  The message argument is
compared against the set literal WARNING-set first; for string messages
that comparison is always false.  The developer switch is
os.environ.get('SEND2UE_DEV', raise_exception): the variable's string value
when the variable is set (truthy iff non-empty), else the raise_exception
argument.  Truthy: raise RuntimeError(message + details); falsy: store the
message and details on the window-manager state and show the popup.
The returned pair is (resulting window-manager state, popup shown?).
-/
structure Send2UeWM where
  error_message : Str
  error_message_details : Str
deriving DecidableEq

inductive ReportMessage where
  | plain (msg : Str)
  | warningSet
deriving DecidableEq

inductive PyExc where
  | runtimeError (msg : Str)
deriving DecidableEq

def report_error (env_send2ue_dev : Option Str) (wm : Send2UeWM) (message : ReportMessage)
    (details : Str) (raise_exception : Bool) : Except PyExc (Send2UeWM × Bool) :=
  match message with
  | ReportMessage.warningSet => Except.ok (wm, false)
  | ReportMessage.plain msg =>
    let dev_truthy :=
      match env_send2ue_dev with
      | some v => !v.isEmpty
      | none => raise_exception
    if dev_truthy then Except.error (PyExc.runtimeError (msg ++ details))
    else Except.ok ({ error_message := msg, error_message_details := details }, true)

/-
Scene state for get_current_context / set_context (utilities.py, lines
867-908).  Blender objects are identified by their (scene-unique) names;
the captured references are modelled by those names.
-/
structure SceneObject where
  name : String
  selected : Bool
  visible : Bool
deriving DecidableEq

structure Scene where
  objects : List SceneObject
  active : Option String
  frame : Int
deriving DecidableEq

structure ContextData where
  active_object : Option String
  selected_objects : List String
  current_frame : Option Int
  visible_objects : List String
deriving DecidableEq

def selectedNames (s : Scene) : List String :=
  (s.objects.filter (fun o => o.selected)).map (fun o => o.name)

def visibleNames (s : Scene) : List String :=
  (s.objects.filter (fun o => o.visible)).map (fun o => o.name)

def get_current_context (s : Scene) : ContextData :=
  { active_object := s.active
    selected_objects := selectedNames s
    current_frame := some s.frame
    visible_objects := visibleNames s }

/-
set_context: deselect everything, re-select the captured objects still
present, restore the active object when captured and still present, restore
the frame.  The captured visible_objects entry is never read.
-/
def set_context (cd : ContextData) (s : Scene) : Scene :=
  let names := s.objects.map (fun o => o.name)
  let objs1 := s.objects.map (fun o => { o with selected := false })
  let objs2 := objs1.map (fun o =>
    if o.name ∈ cd.selected_objects then { o with selected := true } else o)
  let active1 :=
    match cd.active_object with
    | some a => if a ∈ names then some a else s.active
    | none => s.active
  let frame1 :=
    match cd.current_frame with
    | some f => f
    | none => s.frame
  { objects := objs2, active := active1, frame := frame1 }

/-- Modelled from the spec: the PreFixToken enumeration lives in
send2ue/constants.py, which is not among the sources.  Per the spec's data
model (section 3, CollisionName) the prefix tokens are the four collision
prefixes UBX, UCP, USP, UCX; get_from_collection skips objects whose name
starts with token + '_'. -/
def PreFixTokens : List String := ["UBX", "UCP", "USP", "UCX"]

def hasPrefixToken (n : String) : Bool :=
  PreFixTokens.any (fun t => (t ++ "_").data.isPrefixOf n.data)

structure CollectionObject where
  name : String
  type : String
  visible : Bool
deriving DecidableEq

/-
Python's string comparison: lexicographic by code point.  (An executable
comparison is used rather than Mathlib's String order so that concrete sorts
evaluate in the kernel; the two orders agree.)
-/
def charListLe : Str → Str → Bool
  | [], _ => true
  | _ :: _, [] => false
  | a :: as, b :: bs =>
    if a = b then charListLe as bs else decide (a.toNat < b.toNat)

def nameLe (a b : CollectionObject) : Prop := charListLe a.name.data b.name.data = true

instance nameLeDecidable : DecidableRel nameLe :=
  fun a b => inferInstanceAs (Decidable (charListLe a.name.data b.name.data = true))

theorem char_toNat_ne {a b : Char} (h : a ≠ b) : a.toNat ≠ b.toNat := by
  intro he
  exact h (Char.ext (UInt32.ext he))

theorem charListLe_total : ∀ (x y : Str), charListLe x y = true ∨ charListLe y x = true := by
  intro x
  induction x with
  | nil => intro y; left; rfl
  | cons a as ih =>
    intro y
    cases y with
    | nil => right; rfl
    | cons b bs =>
      by_cases hab : a = b
      · subst hab
        simp only [charListLe, if_pos rfl]
        exact ih bs
      · have hba : b ≠ a := fun h => hab h.symm
        simp only [charListLe, if_neg hab, if_neg hba]
        rcases Nat.lt_or_ge a.toNat b.toNat with h | h
        · left; exact decide_eq_true h
        · right
          exact decide_eq_true (lt_of_le_of_ne h (fun he => char_toNat_ne hba he))

theorem charListLe_trans :
    ∀ (x y z : Str), charListLe x y = true → charListLe y z = true →
      charListLe x z = true := by
  intro x
  induction x with
  | nil => intros; rfl
  | cons a as ih =>
    intro y z hxy hyz
    cases y with
    | nil => exact absurd hxy (by simp [charListLe])
    | cons b bs =>
      cases z with
      | nil => exact absurd hyz (by simp [charListLe])
      | cons c cs =>
        by_cases hab : a = b
        · subst hab
          simp only [charListLe, if_pos rfl] at hxy
          by_cases hbc : a = c
          · subst hbc
            simp only [charListLe, if_pos rfl] at hyz ⊢
            exact ih bs cs hxy hyz
          · simp only [charListLe, if_neg hbc] at hyz ⊢
            exact hyz
        · simp only [charListLe, if_neg hab] at hxy
          have hltab : a.toNat < b.toNat := of_decide_eq_true hxy
          by_cases hbc : b = c
          · subst hbc
            simp only [charListLe, if_neg hab]
            exact hxy
          · simp only [charListLe, if_neg hbc] at hyz
            have hltbc : b.toNat < c.toNat := of_decide_eq_true hyz
            have hltac : a.toNat < c.toNat := lt_trans hltab hltbc
            have hac : a ≠ c := fun he => absurd (he ▸ hltac) (lt_irrefl _)
            simp only [charListLe, if_neg hac]
            exact decide_eq_true hltac

theorem charListLe_antisymm :
    ∀ (x y : Str), charListLe x y = true → charListLe y x = true → x = y := by
  intro x
  induction x with
  | nil =>
    intro y _ hyx
    cases y with
    | nil => rfl
    | cons b bs => exact absurd hyx (by simp [charListLe])
  | cons a as ih =>
    intro y hxy hyx
    cases y with
    | nil => exact absurd hxy (by simp [charListLe])
    | cons b bs =>
      by_cases hab : a = b
      · subst hab
        simp only [charListLe, if_pos rfl] at hxy hyx
        rw [ih bs hxy hyx]
      · have hba : b ≠ a := fun h => hab h.symm
        simp only [charListLe, if_neg hab] at hxy
        simp only [charListLe, if_neg hba] at hyx
        exact absurd (lt_trans (of_decide_eq_true hxy) (of_decide_eq_true hyx))
          (lt_irrefl _)

instance nameLeTotal : IsTotal CollectionObject nameLe :=
  ⟨fun a b => charListLe_total a.name.data b.name.data⟩

instance nameLeTrans : IsTrans CollectionObject nameLe :=
  ⟨fun _ _ _ h1 h2 => charListLe_trans _ _ _ h1 h2⟩

/-
get_from_collection (utilities.py, lines 470-492): from the export
collection (when it exists), keep objects of the requested type that are
visible and whose name does not start with a prefix token, then return them
sorted by name (Python's sorted is a stable ascending sort; insertionSort
with a total preorder is as well).
-/
def collectFilter (object_type : String) (o : CollectionObject) : Bool :=
  o.type == object_type && o.visible && !hasPrefixToken o.name

def get_from_collection (export_collection : Option (List CollectionObject))
    (object_type : String) : List CollectionObject :=
  match export_collection with
  | none => []
  | some objs => List.insertionSort nameLe (objs.filter (collectFilter object_type))

/-
Concrete inputs used by the witnesses and counterexamples.
-/

def propsLOD : PropertyData := { lod_regex := "_LOD\\d".toList, import_lods := true }

def propsOptGroup : PropertyData := { lod_regex := "_LOD\\d(x)?".toList, import_lods := true }

def propsInnerGroup : PropertyData := { lod_regex := "_L(OD)\\d".toList, import_lods := true }

def propsCaseIns : PropertyData := { lod_regex := "(?i)_lod\\d".toList, import_lods := true }

def propsCaseSens : PropertyData := { lod_regex := "_lod\\d".toList, import_lods := true }

def propsMalformed : PropertyData := { lod_regex := "(".toList, import_lods := true }

def mgrC1 : ValidationManager Unit :=
  { validate_scene_scale := fun _ => true
    validate_frame_rate := fun _ => true
    validate_armature_transforms := fun _ => false
    validate_export_objects_exist := fun _ => true
    validate_lod_groups := fun _ => true
    validate_project_settings := fun _ => true
    validate_disk_folders := fun _ => true
    validate_unreal_folders := fun _ => true
    validate_unreal_asset_paths := fun _ => true
    validate_materials := fun _ => true
    validate_lod_names := fun _ => true
    validate_texture_references := fun _ => true
    validate_object_names := fun _ => true
    validate_meshes_for_vertex_groups := fun _ => true }

def wm0 : Send2UeWM := { error_message := [], error_message_details := [] }

def sceneA : Scene :=
  { objects := [{ name := "A", selected := true, visible := true },
                { name := "B", selected := false, visible := true }]
    active := some "A"
    frame := 5 }

def sceneB : Scene :=
  { objects := [{ name := "A", selected := false, visible := true },
                { name := "B", selected := true, visible := false }]
    active := none
    frame := 9 }

def sceneCmut : Scene :=
  { objects := [{ name := "A", selected := true, visible := true },
                { name := "B", selected := false, visible := false }]
    active := some "A"
    frame := 5 }

def objsW : List CollectionObject :=
  [{ name := "B", type := "MESH", visible := true },
   { name := "A", type := "MESH", visible := true },
   { name := "UBX_A", type := "MESH", visible := true },
   { name := "C", type := "ARMATURE", visible := true },
   { name := "D", type := "MESH", visible := false }]

/-
Helper lemmas.
-/

theorem runChecks_eq_all {σ : Type} (cs : List (σ → Bool)) (s : σ) :
    runChecks cs s = cs.all (fun c => c s) := by
  induction cs with
  | nil => rfl
  | cons c cs ih => cases h : c s <;> simp [runChecks, h, ih]

theorem runChecksCount_fst {σ : Type} (cs : List (σ → Bool)) (s : σ) :
    (runChecksCount cs s).1 = runChecks cs s := by
  induction cs with
  | nil => rfl
  | cons c cs ih => cases h : c s <;> simp [runChecks, runChecksCount, h, ih]

theorem runChecksCount_firstFalse {σ : Type} (s : σ) :
    ∀ (cs : List (σ → Bool)) (i : Nat) (hi : i < cs.length),
      (∀ j (hj : j < i), cs.get ⟨j, Nat.lt_trans hj hi⟩ s = true) →
      cs.get ⟨i, hi⟩ s = false →
      runChecksCount cs s = (false, i + 1) := by
  intro cs
  induction cs with
  | nil => intro i hi; exact absurd hi (Nat.not_lt_zero i)
  | cons c cs ih =>
    intro i hi hall hfalse
    cases i with
    | zero =>
      have hc : c s = false := hfalse
      simp [runChecksCount, hc]
    | succ i =>
      have hc : c s = true := hall 0 (Nat.succ_pos i)
      have hrec := ih i (Nat.lt_of_succ_lt_succ hi)
        (fun j hj => hall (j + 1) (Nat.succ_lt_succ hj)) hfalse
      simp [runChecksCount, hc, hrec]

theorem mem_pyStrip {c : Char} {s : Str} (h : c ∈ pyStrip s) : c ∈ s := by
  unfold pyStrip at h
  rw [List.mem_reverse] at h
  have h2 := (List.dropWhile_sublist (l := (s.dropWhile isPyWs).reverse) (p := isPyWs)).subset h
  rw [List.mem_reverse] at h2
  exact (List.dropWhile_sublist (l := s) (p := isPyWs)).subset h2

theorem mem_normalizeName_valid {c : Char} {s : Str} (h : c ∈ normalizeName s) :
    isValidNameChar c = true := by
  unfold normalizeName at h
  rcases List.mem_map.mp h with ⟨a, _, hEq⟩
  by_cases hv : isValidNameChar a = true
  · rw [if_pos hv] at hEq; rwa [← hEq]
  · rw [if_neg hv] at hEq; rw [← hEq]; decide

theorem valid_not_ws {c : Char} (h : isValidNameChar c = true) : isPyWs c = false := by
  cases hw : isPyWs c
  · rfl
  · exfalso
    simp only [isPyWs, Bool.or_eq_true, decide_eq_true_eq] at hw
    rcases hw with ((((h1 | h1) | h1) | h1) | h1) | h1 <;> subst h1 <;> revert h <;> decide

theorem dropWhile_eq_self_of_not {p : Char → Bool} {s : Str} (h : ∀ c ∈ s, p c = false) :
    s.dropWhile p = s := by
  cases s with
  | nil => rfl
  | cons a t => simp [List.dropWhile, h a (List.mem_cons_self a t)]

theorem pyStrip_eq_self {s : Str} (h : ∀ c ∈ s, isPyWs c = false) : pyStrip s = s := by
  unfold pyStrip
  rw [dropWhile_eq_self_of_not h,
    dropWhile_eq_self_of_not (fun c hc => h c (List.mem_reverse.mp hc)),
    List.reverse_reverse]

theorem map_valid_id :
    ∀ (s : Str), (∀ c ∈ s, isValidNameChar c = true) →
      s.map (fun c => if isValidNameChar c then c else '_') = s := by
  intro s
  induction s with
  | nil => intro; rfl
  | cons a t ih =>
    intro h
    simp only [List.map_cons, if_pos (h a (List.mem_cons_self a t))]
    rw [ih (fun c hc => h c (List.mem_cons_of_mem a hc))]

theorem normalizeName_eq_self {s : Str} (h : ∀ c ∈ s, isValidNameChar c = true) :
    normalizeName s = s := by
  unfold normalizeName
  rw [pyStrip_eq_self (fun c hc => valid_not_ws (h c hc))]
  exact map_valid_id s h

theorem pyReplaceAux_empty_new_subset (old : Str) :
    ∀ (fuel : Nat) (s : Str) (c : Char), c ∈ pyReplaceAux old [] fuel s → c ∈ s := by
  intro fuel
  induction fuel with
  | zero => intro s c h; exact h
  | succ fuel ih =>
    intro s c h
    cases s with
    | nil => exact absurd h (List.not_mem_nil c)
    | cons a rest =>
      by_cases hp : old.isPrefixOf (a :: rest)
      · rw [pyReplaceAux, if_pos hp] at h
        simp only [List.nil_append] at h
        exact List.drop_subset _ _ (ih _ c h)
      · rw [pyReplaceAux, if_neg hp] at h
        rcases List.mem_cons.mp h with h1 | h1
        · exact h1 ▸ List.mem_cons_self a rest
        · exact List.mem_cons_of_mem a (ih _ c h1)

theorem pyReplace_empty_new_subset {s old : Str} {c : Char} (h : c ∈ pyReplace s old []) :
    c ∈ s := by
  unfold pyReplace at h
  by_cases ho : old = []
  · rw [if_pos ho] at h
    simp only [List.nil_append, List.mem_flatMap] at h
    rcases h with ⟨a, ha, hc⟩
    rcases List.mem_cons.mp hc with h1 | h1
    · exact h1 ▸ ha
    · exact absurd h1 (List.not_mem_nil c)
  · rw [if_neg ho] at h
    exact pyReplaceAux_empty_new_subset old _ s c h

theorem get_asset_name_ok_valid (name : Str) (props : PropertyData) (lod : Bool) (y : Str)
    (h : get_asset_name name props lod = Except.ok y) :
    ∀ c ∈ y, isValidNameChar c = true := by
  intro c hc
  simp only [get_asset_name] at h
  by_cases hi : props.import_lods
  · rw [if_pos hi] at h
    cases hs : lodSearchIn props (normalizeName name) with
    | none =>
      rw [hs] at h
      cases h
      exact mem_normalizeName_valid hc
    | some t =>
      obtain ⟨i, n, caps⟩ := t
      rw [hs] at h
      cases lod with
      | true =>
        simp only [if_true] at h
        cases h
        exact mem_normalizeName_valid hc
      | false =>
        simp only [if_false] at h
        cases hg : capsGet caps 1 with
        | none => rw [hg] at h; cases h
        | some g =>
          rw [hg] at h
          cases h
          exact mem_normalizeName_valid (pyReplace_empty_new_subset hc)
  · rw [if_neg hi] at h
    cases h
    exact mem_normalizeName_valid hc

theorem selAfter (sel : List String) :
    ∀ (l : List SceneObject),
      ((((l.map (fun o => { o with selected := false })).map
          (fun o => if o.name ∈ sel then { o with selected := true } else o)).filter
            (fun o => o.selected)).map (fun o => o.name))
      = (l.map (fun o => o.name)).filter (fun x => decide (x ∈ sel)) := by
  intro l
  induction l with
  | nil => rfl
  | cons a t ih =>
    by_cases h : a.name ∈ sel <;>
      simp [h, List.filter_cons] <;>
      simpa [List.map_map] using ih

theorem visAfter (sel : List String) :
    ∀ (l : List SceneObject),
      ((((l.map (fun o => { o with selected := false })).map
          (fun o => if o.name ∈ sel then { o with selected := true } else o)).filter
            (fun o => o.visible)).map (fun o => o.name))
      = ((l.filter (fun o => o.visible)).map (fun o => o.name)) := by
  intro l
  induction l with
  | nil => rfl
  | cons a t ih =>
    by_cases h : a.name ∈ sel <;> cases hv : a.visible <;>
      simp [h, hv, List.filter_cons] <;>
      simpa [List.map_map] using ih

theorem filter_mem_of_sublist :
    ∀ {ys xs : List String}, ys.Sublist xs → xs.Nodup →
      xs.filter (fun x => decide (x ∈ ys)) = ys := by
  intro ys xs h
  induction h with
  | slnil => intro _; rfl
  | @cons l1 l2 a h ih =>
    intro hnd
    have hna : a ∉ l2 := (List.nodup_cons.mp hnd).1
    have hnys : a ∉ l1 := fun hc => hna (h.subset hc)
    simp only [List.filter_cons, decide_eq_true_eq, if_neg hnys]
    exact ih (List.nodup_cons.mp hnd).2
  | @cons₂ l1 l2 a h ih =>
    intro hnd
    have hna : a ∉ l2 := (List.nodup_cons.mp hnd).1
    have hcongr : ∀ x ∈ l2, decide (x ∈ a :: l1) = decide (x ∈ l1) := by
      intro x hx
      have hxa : x ≠ a := fun he => hna (he ▸ hx)
      simp [List.mem_cons, hxa]
    simp only [List.filter_cons, decide_eq_true_eq, if_pos (List.mem_cons_self a l1)]
    rw [List.filter_congr hcongr, ih (List.nodup_cons.mp hnd).2]

theorem sorted_nodup_eq :
    ∀ (l1 l2 : List CollectionObject), l1.Sorted nameLe → l2.Sorted nameLe → l1.Perm l2 →
      (l1.map (fun o => o.name)).Nodup → l1 = l2 := by
  intro l1
  induction l1 with
  | nil => intro l2 _ _ hp _; exact hp.nil_eq
  | cons a t1 ih =>
    intro l2 hs1 hs2 hp hnd
    simp only [List.map_cons, List.nodup_cons] at hnd
    cases l2 with
    | nil => exact absurd hp.symm.nil_eq (by simp)
    | cons b t2 =>
      have hab : a = b := by
        by_contra hne
        have hbmem : b ∈ a :: t1 := hp.mem_iff.mpr (List.mem_cons_self b t2)
        have hamem : a ∈ b :: t2 := hp.subset (List.mem_cons_self a t1)
        rcases List.mem_cons.mp hbmem with h1 | h1
        · exact hne h1.symm
        rcases List.mem_cons.mp hamem with h2 | h2
        · exact hne h2
        have hle1 : nameLe a b := (List.sorted_cons.mp hs1).1 b h1
        have hle2 : nameLe b a := (List.sorted_cons.mp hs2).1 a h2
        have hname : a.name = b.name :=
          String.ext (charListLe_antisymm _ _ hle1 hle2)
        exact hnd.1 (hname ▸ List.mem_map_of_mem (fun o => o.name) h1)
      subst hab
      rw [ih t2 (List.sorted_cons.mp hs1).2 (List.sorted_cons.mp hs2).2 hp.cons_inv hnd.2]

/-- C1: for every configuration and scene state, ValidationManager.run_pre_validations
invokes its checks in the fixed listed order, returns false as soon as some check
returns false with no later check executed (the instrumented runner counts exactly
the first i + 1 checks, taken from the front of the fixed list, when check i is the
first failure), and returns true only when every check in the list returns true. -/
theorem c1_run_pre_validations_fail_fast (σ : Type) (m : ValidationManager σ) (s : σ) :
    (m.run_pre_validations s = true ↔ ∀ c ∈ m.validations, c s = true)
    ∧ (m.run_pre_validations_count s).1 = m.run_pre_validations s
    ∧ (∀ i (hi : i < m.validations.length),
        (∀ j (hj : j < i), m.validations.get ⟨j, Nat.lt_trans hj hi⟩ s = true) →
        m.validations.get ⟨i, hi⟩ s = false →
        m.run_pre_validations s = false ∧ m.run_pre_validations_count s = (false, i + 1)) := by
  refine ⟨?_, ?_, ?_⟩
  · rw [ValidationManager.run_pre_validations, runChecks_eq_all, List.all_eq_true]
  · exact runChecksCount_fst m.validations s
  · intro i hi hall hfalse
    have h := runChecksCount_firstFalse s m.validations i hi hall hfalse
    refine ⟨?_, h⟩
    rw [ValidationManager.run_pre_validations, ← runChecksCount_fst m.validations s]
    rw [h]

/-- Witness for C1: a concrete manager whose third check (index 2,
validate_armature_transforms) is the first failure: the pipeline returns false
having invoked exactly the first three checks. -/
theorem c1_witness :
    mgrC1.run_pre_validations () = false
    ∧ mgrC1.run_pre_validations_count () = (false, 3) :=
  (c1_run_pre_validations_fail_fast Unit mgrC1 ()).2.2 2 (by decide)
    (fun j hj => by interval_cases j <;> rfl) rfl

/-- C3: is_collision_of returns true exactly when the whitespace-trimmed candidate
fully matches the basic collision form U(BX|CP|SP|CX)_ asset (_digits)? or, only if
that first form fails, the form with the LOD pattern inserted before the numeric
suffix; a malformed LOD pattern silently falls back to the basic form alone.  In
particular is_collision_of "Chair" "UBX_Chair_01" is true and
is_collision_of "Chair" "UBX_Table_01" is false. -/
theorem c3_is_collision_of :
    (∀ (asset_name mesh_object_name : Str) (props : PropertyData),
        is_collision_of asset_name mesh_object_name props =
          is_collision_of_spec asset_name mesh_object_name props)
    ∧ is_collision_of ("Chair".toList) ("UBX_Chair_01".toList) propsLOD = true
    ∧ is_collision_of ("Chair".toList) ("UBX_Table_01".toList) propsLOD = false := by
  refine ⟨?_, by decide, by decide⟩
  intro a c props
  simp only [is_collision_of, is_collision_of_spec]
  cases h : basicFullmatch a (pyStrip c) with
  | true => simp [h]
  | false =>
    cases hc : compile (collisionLodPattern a (cleanPattern props)) with
    | none => simp [h, hc]
    | some rg => simp [h, hc]

/-- C5: _extract_regex_flags detects a leading (?i) token, strips it and reports
the case-insensitive flag; one further leading inline-flag token of shape
'(' '?' letters ')' is stripped and ignored; without the (?i) prefix the flag is
not set.  Consequently get_lod_index matches case-insensitively with an (?i)
prefix ("(?i)_lod\d" finds "_LOD2") and case-sensitively without it ("_lod\d"
does not find "_LOD2"). -/
theorem c5_extract_regex_flags :
    (∀ q : Str, _extract_regex_flags ('(' :: '?' :: 'i' :: ')' :: q) = (stripFlagToken q, true))
    ∧ (∀ p : Str, p.take 4 ≠ "(?i)".toList → _extract_regex_flags p = (stripFlagToken p, false))
    ∧ get_lod_index ("A_LOD2".toList) propsCaseIns = Except.ok 2
    ∧ get_lod_index ("A_LOD2".toList) propsCaseSens = Except.ok 0 := by
  refine ⟨?_, ?_, by decide, by decide⟩
  · intro q
    have ht : ('(' :: '?' :: 'i' :: ')' :: q).take 4 = "(?i)".toList := rfl
    rw [_extract_regex_flags, if_pos ht]
    rfl
  · intro p hp
    rw [_extract_regex_flags, if_neg hp]

/-- Witness for C5: the no-prefix branch applied at the concrete pattern "_LOD\d",
whose leading character is not '('. -/
theorem c5_witness :
    _extract_regex_flags ("_LOD\\d".toList) = (stripFlagToken ("_LOD\\d".toList), false) :=
  c5_extract_regex_flags.2.1 ("_LOD\\d".toList) (by decide)

/-- C2 (amended): asset-name normalization (get_asset_name with lod = false) is
idempotent whenever LOD import is disabled, or the once-normalized name contains
no further match of the LOD pattern (in particular whenever the pattern is
malformed).  Without that proviso it can fail: removing every occurrence of the
matched LOD substring can create a fresh match that a second application also
strips (see the counterexample). -/
theorem c2_get_asset_name_idempotent (name : Str) (props : PropertyData) (y : Str)
    (h1 : get_asset_name name props false = Except.ok y)
    (h2 : props.import_lods = false ∨ lodSearchIn props y = none) :
    get_asset_name y props false = Except.ok y := by
  have hv : ∀ c ∈ y, isValidNameChar c = true :=
    get_asset_name_ok_valid name props false y h1
  have hn : normalizeName y = y := normalizeName_eq_self hv
  simp only [get_asset_name, hn]
  rcases h2 with h2 | h2
  · rw [if_neg (by simp [h2])]
  · by_cases hi : props.import_lods
    · rw [if_pos hi, h2]
    · rw [if_neg hi]

/-- Witness for C2: normalizing "Chair_LOD1" yields "Chair", in which the LOD
pattern "_LOD\d" finds no further match, so a second application is the
identity. -/
theorem c2_witness : get_asset_name ("Chair".toList) propsLOD false = Except.ok ("Chair".toList) :=
  c2_get_asset_name_idempotent ("Chair_LOD1".toList) propsLOD ("Chair".toList)
    (by decide) (Or.inr (by decide))

/-- C2 counterexample: with lod_regex "_LOD\d" and LOD import enabled, the name
"_LO_LOD5D3" normalizes to "_LOD3" (removing the matched "_LOD5" splices "_LO"
and "D3" into a new match), and normalizing "_LOD3" yields "", so applying
get_asset_name twice differs from applying it once. -/
theorem c2_counterexample :
    get_asset_name ("_LO_LOD5D3".toList) propsLOD false = Except.ok ("_LOD3".toList)
    ∧ get_asset_name ("_LOD3".toList) propsLOD false = Except.ok ([] : Str)
    ∧ ("_LOD3".toList : Str) ≠ ([] : Str) :=
  ⟨by decide, by decide, by decide⟩

/-- C4 (amended): a regex compile error (re.error) never escapes: get_lod0_name
returns the input unchanged, get_lod_index returns 0, get_asset_name skips LOD
processing and returns the character-normalized name, and is_collision_of falls
back to the basic collision form.  The only exception any of the three fallible
utilities can propagate is a TypeError, raised when a successful search's
referenced capture group (the first group for get_asset_name, the last group for
get_lod0_name and get_lod_index) did not participate in the match; compile,
match, ValueError and IndexError failures are all absorbed. -/
theorem c4_regex_error_degradation :
    (∀ (name : Str) (props : PropertyData),
        compile (wrapGroup (cleanPattern props)) = none →
          get_lod0_name name props = Except.ok name
          ∧ get_lod_index name props = Except.ok 0
          ∧ get_asset_name name props false = Except.ok (normalizeName name))
    ∧ (∀ (a c : Str) (props : PropertyData),
        compile (collisionLodPattern a (cleanPattern props)) = none →
          is_collision_of a c props = basicFullmatch a (pyStrip c))
    ∧ (∀ (name : Str) (props : PropertyData) (e : PyErr),
        (get_lod0_name name props = Except.error e → e = PyErr.typeError)
        ∧ (get_lod_index name props = Except.error e → e = PyErr.typeError)
        ∧ (∀ lod, get_asset_name name props lod = Except.error e → e = PyErr.typeError)) := by
  refine ⟨?_, ?_, ?_⟩
  · intro name props h
    refine ⟨?_, ?_, ?_⟩
    · simp [get_lod0_name, h]
    · simp [get_lod_index, h]
    · have hs : lodSearchIn props (normalizeName name) = none := by simp [lodSearchIn, h]
      by_cases hi : props.import_lods <;> simp [get_asset_name, hi, hs]
  · intro a c props h
    simp only [is_collision_of, h]
    cases hb : basicFullmatch a (pyStrip c) <;> simp [hb]
  · intro name props e
    refine ⟨?_, ?_, ?_⟩
    · intro h
      unfold get_lod0_name at h
      repeat' split at h
      all_goals first
        | exact Except.noConfusion h
        | exact (Except.error.inj h).symm
    · intro h
      unfold get_lod_index at h
      repeat' split at h
      all_goals first
        | exact Except.noConfusion h
        | exact (Except.error.inj h).symm
    · intro lod h
      simp only [get_asset_name] at h
      repeat' split at h
      all_goals first
        | exact Except.noConfusion h
        | exact (Except.error.inj h).symm

/-- Witness for C4: the malformed pattern "(" makes both the wrapped LOD pattern
and the combined collision pattern fail to compile, and each function degrades
as stated; the TypeError characterization applied at the optional-group pattern
"_LOD\d(x)?" on "A_LOD2". -/
theorem c4_witness :
    (get_lod0_name ("A".toList) propsMalformed = Except.ok ("A".toList)
      ∧ get_lod_index ("A".toList) propsMalformed = Except.ok 0
      ∧ get_asset_name ("A".toList) propsMalformed false
          = Except.ok (normalizeName ("A".toList)))
    ∧ is_collision_of ("Chair".toList) ("UBX_Chair_01".toList) propsMalformed
        = basicFullmatch ("Chair".toList) (pyStrip ("UBX_Chair_01".toList))
    ∧ PyErr.typeError = PyErr.typeError :=
  ⟨c4_regex_error_degradation.1 ("A".toList) propsMalformed (by decide),
   c4_regex_error_degradation.2.1 ("Chair".toList) ("UBX_Chair_01".toList) propsMalformed
     (by decide),
   (c4_regex_error_degradation.2.2 ("A_LOD2".toList) propsOptGroup PyErr.typeError).1
     (by decide)⟩

/-- C4 counterexample: the claim says no exception ever escapes these functions,
but with the well-formed pattern "_LOD\d(x)?" and the name "A_LOD2" the optional
group does not participate, groups()[-1] is None, and both get_lod0_name
(None[:-1]) and get_lod_index (None[-1]) raise an uncaught TypeError. -/
theorem c4_counterexample :
    get_lod0_name ("A_LOD2".toList) propsOptGroup = Except.error PyErr.typeError
    ∧ get_lod_index ("A_LOD2".toList) propsOptGroup = Except.error PyErr.typeError :=
  ⟨by decide, by decide⟩

/-- C6 (amended): get_lod0_name searches the LOD pattern wrapped in a group; on a
match it takes the LAST regex group's captured text (the matched substring when
the pattern has no inner groups) and replaces EVERY occurrence of that text in
the name by the text with its final character replaced by '0'; on no match or
any regex compile error the input is returned unchanged; a match whose last
group did not participate raises an uncaught TypeError. -/
theorem c6_get_lod0_name (name : Str) (props : PropertyData) :
    (compile (wrapGroup (cleanPattern props)) = none →
        get_lod0_name name props = Except.ok name)
    ∧ (∀ r gc, compile (wrapGroup (cleanPattern props)) = some (r, gc) →
        (searchTop (igFlag props) r name = none →
            get_lod0_name name props = Except.ok name)
        ∧ (∀ i n caps, searchTop (igFlag props) r name = some (i, n, caps) → gc ≠ 0 →
            (capsGet caps gc = none →
                get_lod0_name name props = Except.error PyErr.typeError)
            ∧ (∀ g, capsGet caps gc = some g →
                get_lod0_name name props =
                  Except.ok (pyReplace name g (g.dropLast ++ ['0'])))))
    ∧ get_lod0_name ("X_LOD1Y_LOD1".toList) propsLOD = Except.ok ("X_LOD0Y_LOD0".toList) := by
  refine ⟨?_, ?_, by decide⟩
  · intro h
    simp [get_lod0_name, h]
  · intro r gc hc
    refine ⟨?_, ?_⟩
    · intro hs
      simp [get_lod0_name, hc, hs]
    · intro i n caps hs hgc
      refine ⟨?_, ?_⟩
      · intro hg
        simp [get_lod0_name, hc, hs, hgc, hg]
      · intro g hg
        simp [get_lod0_name, hc, hs, hgc, hg]

/-- Witness for C6: the malformed pattern "(" fails to compile and the input is
returned unchanged. -/
theorem c6_witness : get_lod0_name ("A".toList) propsMalformed = Except.ok ("A".toList) :=
  (c6_get_lod0_name ("A".toList) propsMalformed).1 (by decide)

/-- C6 counterexample: on "X_LOD1Y_LOD1" with pattern "_LOD\d" the match is the
first "_LOD1", but str.replace rewrites every occurrence, giving
"X_LOD0Y_LOD0", whereas the claim (replace the matched substring's final
character) predicts "X_LOD0Y_LOD1". -/
theorem c6_counterexample :
    get_lod0_name ("X_LOD1Y_LOD1".toList) propsLOD = Except.ok ("X_LOD0Y_LOD0".toList)
    ∧ lod0_name_asSpecified ("X_LOD1Y_LOD1".toList) propsLOD = ("X_LOD0Y_LOD1".toList)
    ∧ ("X_LOD0Y_LOD0".toList : Str) ≠ ("X_LOD0Y_LOD1".toList : Str) :=
  ⟨by decide, by decide, by decide⟩

/-- C7 (amended): get_lod_index parses the final character of the LAST regex
group's captured text (the matched substring when the pattern has no inner
groups) as an integer; it returns 0 on compile error, no match, empty capture
or a non-digit final character; a match whose last group did not participate
raises an uncaught TypeError.  In particular lod_index "Prop_LOD2" with
pattern "_LOD\d" is 2 and lod_index "Prop" (no match) is 0. -/
theorem c7_get_lod_index (name : Str) (props : PropertyData) :
    (compile (wrapGroup (cleanPattern props)) = none →
        get_lod_index name props = Except.ok 0)
    ∧ (∀ r gc, compile (wrapGroup (cleanPattern props)) = some (r, gc) →
        (searchTop (igFlag props) r name = none →
            get_lod_index name props = Except.ok 0)
        ∧ (∀ i n caps, searchTop (igFlag props) r name = some (i, n, caps) → gc ≠ 0 →
            (capsGet caps gc = none →
                get_lod_index name props = Except.error PyErr.typeError)
            ∧ (∀ g c, capsGet caps gc = some g → g.getLast? = some c → c.isDigit = true →
                get_lod_index name props = Except.ok (c.toNat - 48))
            ∧ (∀ g c, capsGet caps gc = some g → g.getLast? = some c → c.isDigit = false →
                get_lod_index name props = Except.ok 0)
            ∧ (∀ g, capsGet caps gc = some g → g.getLast? = none →
                get_lod_index name props = Except.ok 0)))
    ∧ get_lod_index ("Prop_LOD2".toList) propsLOD = Except.ok 2
    ∧ get_lod_index ("Prop".toList) propsLOD = Except.ok 0 := by
  refine ⟨?_, ?_, by decide, by decide⟩
  · intro h
    simp [get_lod_index, h]
  · intro r gc hc
    refine ⟨?_, ?_⟩
    · intro hs
      simp [get_lod_index, hc, hs]
    · intro i n caps hs hgc
      refine ⟨?_, ?_, ?_, ?_⟩
      · intro hg
        simp [get_lod_index, hc, hs, hgc, hg]
      · intro g c hg hl hd
        simp [get_lod_index, hc, hs, hgc, hg, hl, hd]
      · intro g c hg hl hd
        simp [get_lod_index, hc, hs, hgc, hg, hl, hd]
      · intro g hg hl
        simp [get_lod_index, hc, hs, hgc, hg, hl]

/-- Witness for C7: the malformed pattern "(" fails to compile and the index
defaults to 0. -/
theorem c7_witness : get_lod_index ("A".toList) propsMalformed = Except.ok 0 :=
  (c7_get_lod_index ("A".toList) propsMalformed).1 (by decide)

/-- C7 counterexample: with pattern "_L(OD)\d" on "A_LOD5" the matched substring
is "_LOD5", whose final character parses to 5 as the claim states, but the code
reads groups()[-1], the inner group's "OD", int("D") fails, and 0 is
returned. -/
theorem c7_counterexample :
    get_lod_index ("A_LOD5".toList) propsInnerGroup = Except.ok 0
    ∧ lod_index_asSpecified ("A_LOD5".toList) propsInnerGroup = 5
    ∧ (0 : Nat) ≠ 5 :=
  ⟨by decide, by decide, by decide⟩

/-- C8 (amended): report_error raises RuntimeError(message + details) when the
SEND2UE_DEV environment variable is set to a non-empty string, or when it is
unset and the raise_exception argument (whose default is true) is true; only
when the variable is set to the empty string, or unset with raise_exception
false, does it record the message and details on the shared window-manager
state and show the popup without raising; a warning-set message is printed and
control returns with no state change and no popup. -/
theorem c8_report_error (wm : Send2UeWM) (msg details : Str) (raise_exception : Bool) :
    (∀ v : Str, v.isEmpty = false →
        report_error (some v) wm (ReportMessage.plain msg) details raise_exception
          = Except.error (PyExc.runtimeError (msg ++ details)))
    ∧ (∀ v : Str, v.isEmpty = true →
        report_error (some v) wm (ReportMessage.plain msg) details raise_exception
          = Except.ok ({ error_message := msg, error_message_details := details }, true))
    ∧ report_error none wm (ReportMessage.plain msg) details true
        = Except.error (PyExc.runtimeError (msg ++ details))
    ∧ report_error none wm (ReportMessage.plain msg) details false
        = Except.ok ({ error_message := msg, error_message_details := details }, true)
    ∧ (∀ env, report_error env wm ReportMessage.warningSet details raise_exception
        = Except.ok (wm, false)) := by
  refine ⟨?_, ?_, ?_, ?_, ?_⟩
  · intro v hv
    simp [report_error, hv]
  · intro v hv
    simp [report_error, hv]
  · simp [report_error]
  · simp [report_error]
  · intro env
    simp [report_error]

/-- Witness for C8: with the variable set to the non-empty string "1" the call
raises, regardless of raise_exception. -/
theorem c8_witness :
    report_error (some ("1".toList)) wm0 (ReportMessage.plain ("boom".toList)) [] false
      = Except.error (PyExc.runtimeError ("boom".toList ++ [])) :=
  (c8_report_error wm0 ("boom".toList) [] false).1 ("1".toList) (by decide)

/-- C8 counterexample: the claim says report_error raises only when the
developer-mode variable is set, but with the variable unset and the default
raise_exception = true it still raises instead of recording the message and
showing the popup. -/
theorem c8_counterexample :
    report_error none wm0 (ReportMessage.plain ("Scene scale is not 1!".toList)) [] true
      = Except.error (PyExc.runtimeError ("Scene scale is not 1!".toList ++ [])) := by
  decide

/-- C9 (amended): for scenes whose object-name list is unchanged (names unique),
capturing with get_current_context and restoring with set_context restores the
selected-object set, the active object (when one was captured and it is still
present) and the current frame to their captured values; the visible-object
set is captured but NOT restored: set_context leaves visibility exactly as it
found it. -/
theorem c9_context_round_trip (s s' : Scene) (a : String)
    (hnames : s'.objects.map (fun o => o.name) = s.objects.map (fun o => o.name))
    (hnodup : (s.objects.map (fun o => o.name)).Nodup)
    (hactive : s.active = some a)
    (hmem : a ∈ s.objects.map (fun o => o.name)) :
    selectedNames (set_context (get_current_context s) s') = selectedNames s
    ∧ (set_context (get_current_context s) s').active = s.active
    ∧ (set_context (get_current_context s) s').frame = s.frame
    ∧ visibleNames (set_context (get_current_context s) s') = visibleNames s' := by
  refine ⟨?_, ?_, ?_, ?_⟩
  · have h1 : selectedNames (set_context (get_current_context s) s')
        = (((s'.objects.map (fun o => { o with selected := false })).map
            (fun o => if o.name ∈ selectedNames s then { o with selected := true } else o)).filter
              (fun o => o.selected)).map (fun o => o.name) := rfl
    have hsub : (selectedNames s).Sublist (s.objects.map (fun o => o.name)) := by
      unfold selectedNames
      exact List.Sublist.map (fun o => o.name) (List.filter_sublist s.objects)
    rw [h1, selAfter (selectedNames s) s'.objects, hnames]
    exact filter_mem_of_sublist hsub hnodup
  · have h2 : (set_context (get_current_context s) s').active
        = (match s.active with
           | some x => if x ∈ s'.objects.map (fun o => o.name) then some x else s'.active
           | none => s'.active) := rfl
    rw [h2, hactive]
    show (if a ∈ s'.objects.map (fun o => o.name) then some a else s'.active) = some a
    rw [hnames, if_pos hmem]
  · rfl
  · have h4 : visibleNames (set_context (get_current_context s) s')
        = (((s'.objects.map (fun o => { o with selected := false })).map
            (fun o => if o.name ∈ selectedNames s then { o with selected := true } else o)).filter
              (fun o => o.visible)).map (fun o => o.name) := rfl
    rw [h4, visAfter (selectedNames s) s'.objects]
    rfl

/-- Witness for C9: capturing sceneA (selection on "A", active "A", frame 5) and
restoring onto sceneB (same object names, different selection, active and
frame) restores selection, active object and frame, and leaves sceneB's
visibility as found. -/
theorem c9_witness :
    selectedNames (set_context (get_current_context sceneA) sceneB) = selectedNames sceneA
    ∧ (set_context (get_current_context sceneA) sceneB).active = sceneA.active
    ∧ (set_context (get_current_context sceneA) sceneB).frame = sceneA.frame
    ∧ visibleNames (set_context (get_current_context sceneA) sceneB) = visibleNames sceneB :=
  c9_context_round_trip sceneA sceneB "A" (by decide) (by decide) rfl (by decide)

/-- C9 counterexample: the claim says the round trip restores the set of visible
objects to its captured value, but set_context never reads the captured
visible_objects: capturing sceneA (where "A" and "B" are visible) and restoring
after "B" was hidden leaves "B" hidden. -/
theorem c9_counterexample :
    visibleNames (set_context (get_current_context sceneA) sceneCmut)
      ≠ (get_current_context sceneA).visible_objects := by
  decide

/-- C10: get_from_collection returns exactly the objects of the requested type
that are visible and whose names do not start with a prefix token followed by
'_', and the returned list is sorted in ascending order by object name; for
collections with unique object names the result is independent of the
collection's insertion order, so asset discovery order is deterministic. -/
theorem c10_get_from_collection (object_type : String) :
    (∀ (objs : List CollectionObject) (o : CollectionObject),
        o ∈ get_from_collection (some objs) object_type ↔
          o ∈ objs ∧ o.type = object_type ∧ o.visible = true ∧ hasPrefixToken o.name = false)
    ∧ (∀ ec, (get_from_collection ec object_type).Sorted nameLe)
    ∧ (∀ (objs objs' : List CollectionObject), objs.Perm objs' →
        (objs.map (fun o => o.name)).Nodup →
        get_from_collection (some objs) object_type
          = get_from_collection (some objs') object_type) := by
  refine ⟨?_, ?_, ?_⟩
  · intro objs o
    simp only [get_from_collection, List.mem_insertionSort, List.mem_filter, collectFilter]
    simp [and_assoc]
  · intro ec
    cases ec with
    | none => exact List.sorted_nil
    | some objs => exact List.sorted_insertionSort nameLe _
  · intro objs objs' hperm hnodup
    have hsf : (objs.filter (collectFilter object_type)).Perm
        (objs'.filter (collectFilter object_type)) := hperm.filter _
    have hp : (get_from_collection (some objs) object_type).Perm
        (get_from_collection (some objs') object_type) := by
      simp only [get_from_collection]
      exact ((List.perm_insertionSort nameLe _).trans hsf).trans
        (List.perm_insertionSort nameLe _).symm
    have hnd : ((get_from_collection (some objs) object_type).map (fun o => o.name)).Nodup := by
      have h1 : ((get_from_collection (some objs) object_type).map (fun o => o.name)).Perm
          ((objs.filter (collectFilter object_type)).map (fun o => o.name)) :=
        (List.perm_insertionSort nameLe _).map _
      have h2 : ((objs.filter (collectFilter object_type)).map (fun o => o.name)).Sublist
          (objs.map (fun o => o.name)) :=
        (List.filter_sublist objs).map _
      exact h1.nodup_iff.mpr (h2.nodup hnodup)
    exact sorted_nodup_eq _ _ (List.sorted_insertionSort nameLe _)
      (List.sorted_insertionSort nameLe _) hp hnd

/-- Witness for C10: a concrete collection with unique names gives the same
sorted output as its reversal; the sorted output keeps only visible meshes
without a collision prefix. -/
theorem c10_witness :
    get_from_collection (some objsW) "MESH" = get_from_collection (some objsW.reverse) "MESH"
    ∧ get_from_collection (some objsW) "MESH"
        = [{ name := "A", type := "MESH", visible := true },
           { name := "B", type := "MESH", visible := true }] :=
  ⟨(c10_get_from_collection "MESH").2.2 objsW objsW.reverse
      (List.reverse_perm objsW).symm (by decide),
   by decide⟩
